import Mathlib

/-!
Verification of the aggregation/filter pipeline of `src/script.js`
(a D3 grouped-bar-chart script over the Alzheimer's / Healthy Aging CSV).

Modelling conventions:
* CSV cell contents are `Option String`: `none` models a JavaScript
  `undefined`/`null` field, `some s` a string cell (possibly empty).
* JavaScript numbers are modelled exactly: a `JSNum` is either `nan`
  (the IEEE NaN produced by coercing a non-numeric string) or an exact
  rational `num q`.  Floating-point rounding and infinities are outside
  the model; none of the verified properties depend on them.
* The `Data_Value` cell is modelled by the outcome of the JavaScript
  unary `+` coercion performed at line 15 of the source: the empty
  string (mapped to `null` by the code before `+` is reached), a string
  that coerces to the number `q`, or a non-empty string that coerces to
  `NaN`.
* `d3.rollup` builds `InternMap`s whose keys appear in first-occurrence
  order; this is modelled by `firstKeys`.  `d3.mean` ignores `null`,
  `undefined` and `NaN` values and returns `undefined` on an empty
  collection; this is modelled by `d3mean`.
* JavaScript's default `Array.prototype.sort` compares strings by code
  units and places `undefined` last; `optLE` models this order
  (code-unit and code-point order agree on the data's character range).
-/

/-- A JavaScript number as it occurs in this pipeline: either `NaN`
(from coercing a malformed string) or an exact numeric value. -/
inductive JSNum where
  | nan : JSNum
  | num : ℚ → JSNum
deriving DecidableEq, Repr

/-- The `Data_Value` cell of a raw CSV row, classified by the outcome of
JavaScript numeric coercion: the empty string, a string coercing to the
number `q`, or a non-empty string coercing to `NaN`. -/
inductive RawValue where
  | emptyStr : RawValue
  | numeric : ℚ → RawValue
  | malformed : RawValue
deriving DecidableEq, Repr

/-- A raw CSV row restricted to the columns the row accessor reads
(`script.js` lines 8–16).  `none` models an absent (`undefined`) cell. -/
structure RawRow where
  Class : Option String
  Topic : Option String
  StratificationCategory1 : Option String
  Stratification1 : Option String
  StratificationCategory2 : Option String
  Stratification2 : Option String
  Data_Value : Option RawValue
deriving DecidableEq, Repr

/-- A projected record as produced by the row accessor. -/
structure Row where
  Class : Option String
  Topic : Option String
  StratCat1 : Option String
  Strat1 : Option String
  StratCat2 : Option String
  Strat2 : Option String
  Value : Option JSNum
deriving DecidableEq, Repr

/-- `d.Data_Value === "" ? null : +d.Data_Value` (line 15): the empty
string becomes `null`; any other cell is coerced with unary `+`, which
yields `NaN` on an absent cell (`+undefined`) and on a non-empty
non-numeric string. -/
def parseValue : Option RawValue → Option JSNum
  | none => some JSNum.nan
  | some RawValue.emptyStr => none
  | some (RawValue.numeric q) => some (JSNum.num q)
  | some RawValue.malformed => some JSNum.nan

/-- The row accessor passed to `d3.csv` (lines 8–16). -/
def rowAccessor (d : RawRow) : Row :=
  { Class := d.Class
    Topic := d.Topic
    StratCat1 := d.StratificationCategory1
    Strat1 := d.Stratification1
    StratCat2 := d.StratificationCategory2
    Strat2 := d.Stratification2
    Value := parseValue d.Data_Value }

/-- The topic excluded by the filter (line 24). -/
def excludedTopic : String :=
  "Talked with health care professional about subjective cognitive decline or memory loss"

/-- The filter predicate of `base` (lines 22–27). -/
def basePred (d : Row) : Bool :=
  d.Class = some "Cognitive Decline" &&
  d.Topic ≠ some excludedTopic &&
  d.Strat1 ≠ some "Overall" &&
  d.Value ≠ none

/-- `const base = rows.filter(...)` (lines 22–27). -/
def baseFilter (rows : List Row) : List Row :=
  rows.filter basePred

/-- C2: a row is in the Filtered Base Set iff it satisfies all four
filter predicates — Class is "Cognitive Decline", Topic is not the
excluded topic, Strat1 is not "Overall", and Value is non-null. -/
theorem base_mem_iff (rows : List Row) (r : Row) :
    r ∈ baseFilter rows ↔
      r ∈ rows ∧
        r.Class = some "Cognitive Decline" ∧
        r.Topic ≠ some excludedTopic ∧
        r.Strat1 ≠ some "Overall" ∧
        r.Value ≠ none := by
  simp [baseFilter, basePred, List.mem_filter, and_assoc]

/-- JavaScript's `String.prototype.includes`: `sub` occurs in `s` as a
contiguous substring. -/
def strIncludes (s sub : String) : Bool :=
  (List.range (s.length + 1)).any
    (fun i => (s.toList.drop i).take sub.length == sub.toList)

/-- `base.filter(d => d.StratCat1 === "Age Group")` (line 79). -/
def ageLayer (base : List Row) : List Row :=
  base.filter (fun d => d.StratCat1 = some "Age Group")

/-- The sex-branch filter predicate `d.StratCat2 === "Sex"` (lines 89–90). -/
def sexPred (d : Row) : Bool :=
  d.StratCat2 = some "Sex"

/-- The ethnicity-branch filter predicate
`d.StratCat2 && (d.StratCat2.includes("Race") || d.StratCat2.includes("Ethnic"))`
(lines 93–96): a `null`/`undefined` or empty `StratCat2` is falsy, so the
short-circuit `&&` yields a falsy value and `includes` is never reached. -/
def ethPred (d : Row) : Bool :=
  match d.StratCat2 with
  | none => false
  | some s => if s = "" then false
              else strIncludes s "Race" || strIncludes s "Ethnic"

/-- The Dimension View `rows` computed in `updateGroupedChart`
(lines 82–97): the age layer further filtered by the selected dimension. -/
def updateRows (mode : String) (base : List Row) : List Row :=
  if mode = "sex" then (ageLayer base).filter sexPred
  else (ageLayer base).filter ethPred

/-- C3: membership in the Dimension View is equivalent to membership in
the base set together with `StratCat1 = "Age Group"` and the dimension
condition — `StratCat2 = "Sex"` exactly when the selector is `"sex"`,
otherwise a `StratCat2` string containing `"Race"` or `"Ethnic"`. -/
theorem updateRows_mem_iff (base : List Row) (mode : String) (r : Row) :
    r ∈ updateRows mode base ↔
      r ∈ base ∧ r.StratCat1 = some "Age Group" ∧
        (if mode = "sex" then r.StratCat2 = some "Sex"
         else ∃ s, r.StratCat2 = some s ∧
           (strIncludes s "Race" = true ∨ strIncludes s "Ethnic" = true)) := by
  by_cases hm : mode = "sex" <;>
    simp only [updateRows, ageLayer, hm, if_true, if_false, List.mem_filter,
      decide_eq_true_eq, and_assoc, if_pos, if_neg, not_false_iff]
  · simp [sexPred]
  · simp only [hm, if_neg, not_false_iff, and_congr_right_iff]
    intro _ _
    constructor
    · intro h
      match hs : r.StratCat2 with
      | none => rw [ethPred] at h; simp [hs] at h
      | some s =>
        refine ⟨s, rfl, ?_⟩
        rw [ethPred] at h
        simp only [hs] at h
        by_cases he : s = ""
        · simp [he] at h
        · simp only [he, if_false] at h
          exact Bool.or_eq_true _ _ |>.mp h
    · rintro ⟨s, hs, h⟩
      rw [ethPred]
      simp only [hs]
      have he : s ≠ "" := by
        rintro rfl
        rcases h with h | h <;> revert h <;> decide
      simp only [he, if_false]
      exact Bool.or_eq_true _ _ |>.mpr h

/-- C10: in the ethnicity branch the truthiness guard excludes rows whose
`StratCat2` is `null`/`undefined`: the predicate evaluates to `false` on
them (no error is possible, the predicate is a total function) and such
rows never enter the Dimension View. -/
theorem ethPred_total_on_none (base : List Row) (mode : String) (r : Row)
    (hm : mode ≠ "sex") (h : r.StratCat2 = none) :
    ethPred r = false ∧ r ∉ updateRows mode base := by
  have hp : ethPred r = false := by rw [ethPred, h]
  refine ⟨hp, ?_⟩
  intro hmem
  rw [updateRows, if_neg hm] at hmem
  have := (List.mem_filter.mp hmem).2
  rw [hp] at this
  cases this

/-- Witness for `ethPred_total_on_none` at a concrete row with absent
`StratCat2` and a concrete base list containing it. -/
theorem ethPred_total_on_none_witness :
    ethPred { Class := some "Cognitive Decline", Topic := some "T",
              StratCat1 := some "Age Group", Strat1 := some "60-64",
              StratCat2 := none, Strat2 := some "Female",
              Value := some (JSNum.num 10) } = false ∧
    { Class := some "Cognitive Decline", Topic := some "T",
      StratCat1 := some "Age Group", Strat1 := some "60-64",
      StratCat2 := none, Strat2 := some "Female",
      Value := some (JSNum.num 10) } ∉
      updateRows "ethnicity"
        [{ Class := some "Cognitive Decline", Topic := some "T",
           StratCat1 := some "Age Group", Strat1 := some "60-64",
           StratCat2 := none, Strat2 := some "Female",
           Value := some (JSNum.num 10) }] :=
  ethPred_total_on_none _ "ethnicity" _ (by decide) rfl

/-- One step of building an insertion-ordered `Map`/`Set`: a key already
present is kept in place, a new key is appended. -/
def insertNew {α : Type} [DecidableEq α] (acc : List α) (x : α) : List α :=
  if x ∈ acc then acc else acc ++ [x]

/-- The distinct elements of a list in first-occurrence order, as a
JavaScript `Map`/`Set` built by insertion records them. -/
def firstKeys {α : Type} [DecidableEq α] (l : List α) : List α :=
  l.foldl insertNew []

theorem mem_insertNew {α : Type} [DecidableEq α]
    (acc : List α) (x a : α) :
    a ∈ insertNew acc x ↔ a ∈ acc ∨ a = x := by
  rw [insertNew]
  by_cases hx : x ∈ acc
  · rw [if_pos hx]
    constructor
    · exact Or.inl
    · rintro (h | rfl)
      · exact h
      · exact hx
  · rw [if_neg hx]
    simp

theorem mem_foldl_insertNew {α : Type} [DecidableEq α]
    (l : List α) (acc : List α) (a : α) :
    a ∈ l.foldl insertNew acc ↔ a ∈ acc ∨ a ∈ l := by
  induction l generalizing acc with
  | nil => simp
  | cons x xs ih =>
    rw [List.foldl_cons, ih, mem_insertNew, List.mem_cons]
    tauto

theorem nodup_foldl_insertNew {α : Type} [DecidableEq α]
    (l : List α) (acc : List α) (h : acc.Nodup) :
    (l.foldl insertNew acc).Nodup := by
  induction l generalizing acc with
  | nil => simpa
  | cons x xs ih =>
    rw [List.foldl_cons]
    apply ih
    rw [insertNew]
    by_cases hx : x ∈ acc
    · rwa [if_pos hx]
    · rw [if_neg hx]
      simp [List.nodup_append, h, hx]

theorem mem_firstKeys {α : Type} [DecidableEq α] (l : List α) (a : α) :
    a ∈ firstKeys l ↔ a ∈ l := by
  rw [firstKeys, mem_foldl_insertNew]
  simp

theorem nodup_firstKeys {α : Type} [DecidableEq α] (l : List α) :
    (firstKeys l).Nodup :=
  nodup_foldl_insertNew l [] List.nodup_nil

/-- The numeric (non-`NaN`, non-`null`) values of a list of nullable
JavaScript numbers — those `d3.mean` actually averages. -/
def numericVals (l : List (Option JSNum)) : List ℚ :=
  l.filterMap (fun v => match v with
    | some (JSNum.num q) => some q
    | _ => none)

/-- `d3.mean`: the arithmetic mean of the numeric values, ignoring
`undefined`, `null` and `NaN` entries; `undefined` (here `none`) when no
numeric value is present. -/
def d3mean (l : List (Option JSNum)) : Option ℚ :=
  let ns := numericVals l
  if ns.length = 0 then none else some (ns.sum / (ns.length : ℚ))

/-- The reduced value `d3.mean(v, d => d.Value)` of the rollup group
with outer key `age` and inner key `cat` (lines 105–110): the group is
the rows with `Strat1 = age` further restricted to `Strat2 = cat`. -/
def leafMean (rows : List Row) (age cat : Option String) : Option ℚ :=
  d3mean (((rows.filter (fun d => d.Strat1 = age)).filter
    (fun d => d.Strat2 = cat)).map (fun d => d.Value))

/-- The inner `InternMap` of the rollup for outer key `age`: the
distinct `Strat2` values of the `Strat1 = age` group in first-occurrence
order, each paired with the group's mean. -/
def innerTable (rows : List Row) (age : Option String) :
    List (Option String × Option ℚ) :=
  (firstKeys ((rows.filter (fun d => d.Strat1 = age)).map
      (fun d => d.Strat2))).map
    (fun cat => (cat, leafMean rows age cat))

/-- The nested `d3.rollup` of lines 105–110 as an association list:
outer keys are the distinct `Strat1` values in first-occurrence order,
each paired with its inner table. -/
def nested (rows : List Row) :
    List (Option String × List (Option String × Option ℚ)) :=
  (firstKeys (rows.map (fun d => d.Strat1))).map
    (fun age => (age, innerTable rows age))

/-- Lookup in the Aggregate Table: the value stored in `nested` under
outer key `age` and inner key `cat`, when both are present. -/
def aggLookup (rows : List Row) (age cat : Option String) :
    Option (Option ℚ) :=
  match (nested rows).find? (fun p => p.1 = age) with
  | none => none
  | some p =>
    match p.2.find? (fun q => q.1 = cat) with
    | none => none
    | some q => some q.2

/-- The rows of the Dimension View matching a given (age, category)
pair, in order. -/
def matchingRows (rows : List Row) (age cat : Option String) : List Row :=
  rows.filter (fun d => d.Strat1 = age && d.Strat2 = cat)

/-- A pair is present in a row list when some row carries both keys. -/
def pairPresent (rows : List Row) (age cat : Option String) : Prop :=
  ∃ r ∈ rows, r.Strat1 = age ∧ r.Strat2 = cat

theorem find?_map_key {K V : Type} [DecidableEq K]
    (keys : List K) (f : K → V) (k : K) (hk : k ∈ keys) :
    (keys.map (fun a => (a, f a))).find? (fun p => p.1 = k)
      = some (k, f k) := by
  induction keys with
  | nil => cases hk
  | cons a as ih =>
    by_cases hak : a = k
    · subst hak
      simp [List.find?]
    · rcases List.mem_cons.mp hk with h | h
      · exact absurd h.symm hak
      · simpa [List.find?, hak] using ih h

theorem aggLookup_present (rows : List Row) (age cat : Option String)
    (h : pairPresent rows age cat) :
    aggLookup rows age cat = some (leafMean rows age cat) := by
  obtain ⟨r, hr, h1, h2⟩ := h
  have hage : age ∈ firstKeys (rows.map (fun d => d.Strat1)) := by
    rw [mem_firstKeys]
    exact List.mem_map.mpr ⟨r, hr, h1⟩
  have hcat : cat ∈ firstKeys ((rows.filter (fun d => d.Strat1 = age)).map
      (fun d => d.Strat2)) := by
    rw [mem_firstKeys]
    refine List.mem_map.mpr ⟨r, ?_, h2⟩
    exact List.mem_filter.mpr ⟨hr, by simp [h1]⟩
  rw [aggLookup, nested,
    find?_map_key _ (fun a => innerTable rows a) age hage]
  dsimp only
  rw [innerTable, find?_map_key _ (fun c => leafMean rows age c) cat hcat]

theorem leafMean_eq_matching (rows : List Row) (age cat : Option String) :
    leafMean rows age cat
      = d3mean ((matchingRows rows age cat).map (fun d => d.Value)) := by
  rw [leafMean, matchingRows, List.filter_filter]
  congr 2
  apply List.filter_congr
  intro a _
  exact Bool.and_comm _ _

/-- JavaScript addition restricted to this pipeline's numbers: `NaN`
absorbs. -/
def jadd : JSNum → JSNum → JSNum
  | JSNum.num a, JSNum.num b => JSNum.num (a + b)
  | _, _ => JSNum.nan

/-- The sum of a list of JavaScript numbers. -/
def jsSum : List JSNum → JSNum
  | [] => JSNum.num 0
  | v :: vs => jadd v (jsSum vs)

/-- The arithmetic mean of a list of JavaScript numbers, used to state
the spec's "arithmetic mean of exactly the Value fields"; meaningful for
nonempty lists (the claims only apply it to nonempty groups). -/
def specMean (l : List JSNum) : JSNum :=
  match jsSum l with
  | JSNum.nan => JSNum.nan
  | JSNum.num s => JSNum.num (s / (l.length : ℚ))

theorem numericVals_all_num (qs : List ℚ) :
    numericVals (qs.map (fun q => some (JSNum.num q))) = qs := by
  induction qs with
  | nil => rfl
  | cons q qs ih => simp [numericVals, List.filterMap] at ih ⊢; exact ih

theorem jsSum_all_num (qs : List ℚ) :
    jsSum (qs.map JSNum.num) = JSNum.num qs.sum := by
  induction qs with
  | nil => rfl
  | cons q qs ih => simp [jsSum, ih, jadd]

/-- The formalisation of the claim "the Aggregate Table's value for a
pair equals the arithmetic mean of exactly the Value fields of the rows
matching that pair": whenever the matching rows' `Value` fields are the
(non-null) JavaScript numbers `vs`, the stored aggregate is a number
equal to the arithmetic mean of `vs`. -/
def meanClaimAt (rows : List Row) (age cat : Option String) : Prop :=
  ∀ vs : List JSNum,
    (matchingRows rows age cat).map (fun d => d.Value) = vs.map some →
    ∃ q : ℚ, aggLookup rows age cat = some (some q) ∧
      specMean vs = JSNum.num q

/-- C1 (amended): for every (age, category) pair present in the
Dimension View the Aggregate Table stores `d3.mean` of exactly the
matching rows' Values — which skips `NaN` values — and, whenever all
matching Values are numeric, that stored value is exactly the
arithmetic mean of the matching rows' Value fields. -/
theorem aggLookup_mean (base : List Row) (mode : String)
    (age cat : Option String)
    (h : pairPresent (updateRows mode base) age cat) :
    aggLookup (updateRows mode base) age cat
      = some (d3mean ((matchingRows (updateRows mode base) age cat).map
          (fun d => d.Value))) ∧
    ∀ qs : List ℚ,
      (matchingRows (updateRows mode base) age cat).map (fun d => d.Value)
        = qs.map (fun q => some (JSNum.num q)) →
      aggLookup (updateRows mode base) age cat
        = some (some (qs.sum / (qs.length : ℚ))) ∧
      specMean (qs.map JSNum.num) = JSNum.num (qs.sum / (qs.length : ℚ)) := by
  have hagg := aggLookup_present _ age cat h
  rw [leafMean_eq_matching] at hagg
  refine ⟨hagg, ?_⟩
  intro qs hqs
  obtain ⟨r, hr, h1, h2⟩ := h
  have hrm : r ∈ matchingRows (updateRows mode base) age cat :=
    List.mem_filter.mpr ⟨hr, by simp [h1, h2]⟩
  have hne : qs ≠ [] := by
    rintro rfl
    simp only [List.map_nil] at hqs
    rw [List.map_eq_nil_iff] at hqs
    rw [hqs] at hrm
    cases hrm
  have hlen : qs.length ≠ 0 := by
    simpa [List.length_eq_zero] using hne
  constructor
  · rw [hagg, hqs]
    simp only [d3mean, numericVals_all_num]
    simp [hlen]
  · simp only [specMean, jsSum_all_num]
    simp

/-- Witness for `aggLookup_mean` at a one-row Dimension View. -/
theorem aggLookup_mean_witness :
    aggLookup (updateRows "sex"
      [{ Class := some "Cognitive Decline", Topic := some "T",
         StratCat1 := some "Age Group", Strat1 := some "60-64",
         StratCat2 := some "Sex", Strat2 := some "Female",
         Value := some (JSNum.num 10) }])
      (some "60-64") (some "Female") = some (some 10) := by
  have h := aggLookup_mean
    [{ Class := some "Cognitive Decline", Topic := some "T",
       StratCat1 := some "Age Group", Strat1 := some "60-64",
       StratCat2 := some "Sex", Strat2 := some "Female",
       Value := some (JSNum.num 10) }] "sex"
    (some "60-64") (some "Female")
    ⟨{ Class := some "Cognitive Decline", Topic := some "T",
       StratCat1 := some "Age Group", Strat1 := some "60-64",
       StratCat2 := some "Sex", Strat2 := some "Female",
       Value := some (JSNum.num 10) }, by decide, rfl, rfl⟩
  have h10 := (h.2 [10] (by decide)).1
  simpa using h10

/-- A two-row base whose single (age, category) pair mixes a `NaN`
Value with a numeric one. -/
def mixedBase : List Row :=
  [{ Class := some "Cognitive Decline", Topic := some "T",
     StratCat1 := some "Age Group", Strat1 := some "60-64",
     StratCat2 := some "Sex", Strat2 := some "Female",
     Value := some JSNum.nan },
   { Class := some "Cognitive Decline", Topic := some "T",
     StratCat1 := some "Age Group", Strat1 := some "60-64",
     StratCat2 := some "Sex", Strat2 := some "Female",
     Value := some (JSNum.num 10) }]

/-- Raw CSV rows that load exactly to `mixedBase`: the first one's
`Data_Value` cell is a non-empty unparseable string. -/
def mixedRaw : List RawRow :=
  [{ Class := some "Cognitive Decline", Topic := some "T",
     StratificationCategory1 := some "Age Group",
     Stratification1 := some "60-64",
     StratificationCategory2 := some "Sex",
     Stratification2 := some "Female",
     Data_Value := some RawValue.malformed },
   { Class := some "Cognitive Decline", Topic := some "T",
     StratificationCategory1 := some "Age Group",
     Stratification1 := some "60-64",
     StratificationCategory2 := some "Sex",
     Stratification2 := some "Female",
     Data_Value := some (RawValue.numeric 10) }]

/-- Counterexample to C1 as stated: on a Filtered Base Set reachable
from raw CSV input, the Dimension View's ("60-64", "Female") group has
Value fields `[NaN, 10]`; the pair is present, the Aggregate Table
stores `10` (d3.mean skips the `NaN`), yet the arithmetic mean of
exactly those Value fields is `NaN`, so the stored value is not the
arithmetic mean of the Value fields. -/
theorem meanClaim_counterexample :
    baseFilter (mixedRaw.map rowAccessor) = mixedBase ∧
    pairPresent (updateRows "sex" mixedBase) (some "60-64") (some "Female") ∧
    aggLookup (updateRows "sex" mixedBase) (some "60-64") (some "Female")
      = some (some 10) ∧
    ¬ meanClaimAt (updateRows "sex" mixedBase)
        (some "60-64") (some "Female") := by
  have hpair : pairPresent (updateRows "sex" mixedBase)
      (some "60-64") (some "Female") :=
    ⟨{ Class := some "Cognitive Decline", Topic := some "T",
       StratCat1 := some "Age Group", Strat1 := some "60-64",
       StratCat2 := some "Sex", Strat2 := some "Female",
       Value := some JSNum.nan }, by decide, rfl, rfl⟩
  refine ⟨by decide, hpair, ?_, ?_⟩
  · rw [aggLookup_present _ _ _ hpair]
    norm_num [leafMean, updateRows, ageLayer, sexPred, mixedBase, d3mean,
      numericVals, List.filterMap_cons]
  intro hcl
  obtain ⟨q, _, hmean⟩ := hcl [JSNum.nan, JSNum.num 10] (by decide)
  have hnan : specMean [JSNum.nan, JSNum.num 10] = JSNum.nan := rfl
  rw [hnan] at hmean
  exact JSNum.noConfusion hmean

/-- A raw CSV row whose `Data_Value` cell is a non-empty string that
does not parse as a number. -/
def malformedRaw : RawRow :=
  { Class := some "Cognitive Decline", Topic := some "T",
    StratificationCategory1 := some "Age Group",
    Stratification1 := some "60-64",
    StratificationCategory2 := some "Sex",
    Stratification2 := some "Female",
    Data_Value := some RawValue.malformed }

/-- Counterexample to C5 as stated: a raw row whose `Data_Value` is a
non-empty unparseable string gets `Value = NaN` (not `null`) from the
row accessor, and since `NaN !== null` the row survives the filter, so
the Filtered Base Set contains a row with a non-numeric Value. -/
theorem malformed_not_dropped_counterexample :
    (rowAccessor malformedRaw).Value = some JSNum.nan ∧
    rowAccessor malformedRaw ∈ baseFilter ([malformedRaw].map rowAccessor) := by
  decide

/-- C5 (amended): only a raw row whose `Data_Value` cell is the empty
string gets `Value = null` and is dropped by the `Value !== null`
filter; a non-empty unparseable `Data_Value` (and an absent cell)
yields `Value = NaN`, which survives the filter, so the Filtered Base
Set contains no null Value but may contain `NaN` Values. -/
theorem value_null_iff (raw : RawRow) (rows : List Row) :
    ((rowAccessor raw).Value = none ↔
        raw.Data_Value = some RawValue.emptyStr) ∧
    (raw.Data_Value = some RawValue.malformed →
        (rowAccessor raw).Value = some JSNum.nan) ∧
    (rowAccessor raw ∈ baseFilter rows → (rowAccessor raw).Value ≠ none) := by
  refine ⟨?_, ?_, ?_⟩
  · match h : raw.Data_Value with
    | none => simp [rowAccessor, parseValue, h]
    | some RawValue.emptyStr => simp [rowAccessor, parseValue, h]
    | some (RawValue.numeric q) => simp [rowAccessor, parseValue, h]
    | some RawValue.malformed => simp [rowAccessor, parseValue, h]
  · intro h
    simp [rowAccessor, parseValue, h]
  · intro hmem
    have := (List.mem_filter.mp hmem).2
    rw [basePred] at this
    simp only [Bool.and_eq_true, decide_eq_true_eq] at this
    simpa using this.2

/-- Witness for `value_null_iff`: an empty `Data_Value` becomes `null`,
a malformed one becomes `NaN`. -/
theorem value_null_iff_witness :
    (rowAccessor
      { Class := some "C", Topic := some "T",
        StratificationCategory1 := some "A", Stratification1 := some "S",
        StratificationCategory2 := some "B", Stratification2 := some "U",
        Data_Value := some RawValue.emptyStr }).Value = none ∧
    (rowAccessor
      { Class := some "C", Topic := some "T",
        StratificationCategory1 := some "A", Stratification1 := some "S",
        StratificationCategory2 := some "B", Stratification2 := some "U",
        Data_Value := some RawValue.malformed }).Value = some JSNum.nan :=
  ⟨(value_null_iff
      { Class := some "C", Topic := some "T",
        StratificationCategory1 := some "A", Stratification1 := some "S",
        StratificationCategory2 := some "B", Stratification2 := some "U",
        Data_Value := some RawValue.emptyStr } []).1.mpr rfl,
   (value_null_iff
      { Class := some "C", Topic := some "T",
        StratificationCategory1 := some "A", Stratification1 := some "S",
        StratificationCategory2 := some "B", Stratification2 := some "U",
        Data_Value := some RawValue.malformed } []).2.1 rfl⟩

/-- JavaScript's default `Array.prototype.sort` comparison on the
possibly-absent string keys of this pipeline, as a Boolean: strings are
compared lexicographically and `undefined` sorts last. -/
def optLEb : Option String → Option String → Bool
  | _, none => true
  | none, some _ => false
  | some a, some b => a.toList ≤ b.toList

/-- The sort order as a relation. -/
def optLE (a b : Option String) : Prop := optLEb a b = true

instance : DecidableRel optLE := fun a b =>
  inferInstanceAs (Decidable (optLEb a b = true))

instance : IsTotal (Option String) optLE where
  total a b := by
    cases a <;> cases b <;> simp [optLE, optLEb] <;> exact le_total _ _

instance : IsTrans (Option String) optLE where
  trans a b c hab hbc := by
    cases a <;> cases b <;> cases c <;>
      simp [optLE, optLEb] at hab hbc ⊢ <;>
      first
        | trivial
        | exact le_trans hab hbc

/-- `Array.from(nested.keys()).sort()` (line 113): the rollup's outer
keys, sorted. -/
def ageGroups (rows : List Row) : List (Option String) :=
  List.insertionSort optLE ((nested rows).map (fun p => p.1))

/-- `Array.from(new Set(rows.map(d => d.Strat2))).sort()` (line 115):
the distinct `Strat2` values of the Dimension View, sorted. -/
def categories (rows : List Row) : List (Option String) :=
  List.insertionSort optLE (firstKeys (rows.map (fun d => d.Strat2)))

theorem nested_keys_eq (rows : List Row) :
    (nested rows).map (fun p => p.1)
      = firstKeys (rows.map (fun d => d.Strat1)) := by
  rw [nested, List.map_map]
  exact List.map_id _

/-- C7: the axis domains are duplicate-free and sorted in plain string
order (string comparison, `undefined` last — not clinical age order):
the age groups are exactly the distinct `Strat1` values of the
Dimension View and the categories exactly its distinct `Strat2`
values; on string keys the order is lexicographic string comparison. -/
theorem axis_domains (base : List Row) (mode : String) :
    (ageGroups (updateRows mode base)).Nodup ∧
    List.Sorted optLE (ageGroups (updateRows mode base)) ∧
    (∀ a, a ∈ ageGroups (updateRows mode base) ↔
        ∃ r ∈ updateRows mode base, r.Strat1 = a) ∧
    (categories (updateRows mode base)).Nodup ∧
    List.Sorted optLE (categories (updateRows mode base)) ∧
    (∀ c, c ∈ categories (updateRows mode base) ↔
        ∃ r ∈ updateRows mode base, r.Strat2 = c) ∧
    (∀ s t : String, optLE (some s) (some t) ↔ s ≤ t) := by
  refine ⟨?_, ?_, ?_, ?_, ?_, ?_, ?_⟩
  · rw [ageGroups]
    exact ((List.perm_insertionSort optLE _).nodup_iff).mpr
      (by rw [nested_keys_eq]; exact nodup_firstKeys _)
  · exact List.sorted_insertionSort optLE _
  · intro a
    rw [ageGroups, (List.perm_insertionSort optLE _).mem_iff,
      nested_keys_eq, mem_firstKeys]
    simp
  · exact ((List.perm_insertionSort optLE _).nodup_iff).mpr
      (nodup_firstKeys _)
  · exact List.sorted_insertionSort optLE _
  · intro c
    rw [categories, (List.perm_insertionSort optLE _).mem_iff, mem_firstKeys]
    simp
  · intro s t
    simp [optLE, optLEb, String.le_iff_toList_le]

/-- One record of the Flattened Series / rendered bar data:
`{AgeGroup, Category, Value}` as built at lines 122–131 and 170–179. -/
structure FlatDatum where
  AgeGroup : Option String
  Category : Option String
  Value : Option ℚ
deriving DecidableEq, Repr

/-- The Flattened Series (lines 122–131): one record per entry of the
nested rollup, outer entries in key order, inner entries in key order. -/
def flatData (rows : List Row) : List FlatDatum :=
  (nested rows).flatMap (fun p =>
    p.2.map (fun q => { AgeGroup := p.1, Category := q.1, Value := q.2 }))

/-- The per-bar data bound to the rectangles of one age group
(lines 170–179): one record per category, taking the flattened record's
Value when `find` locates one and `0` otherwise. -/
def barData (rows : List Row) (age : Option String) : List FlatDatum :=
  (categories rows).map (fun cat =>
    match (flatData rows).find?
        (fun d => d.AgeGroup = age && d.Category = cat) with
    | some found => { AgeGroup := age, Category := cat, Value := found.Value }
    | none => { AgeGroup := age, Category := cat, Value := some 0 })

/-- All rendered per-bar records: one `barData` block per age group. -/
def allBars (rows : List Row) : List FlatDatum :=
  (ageGroups rows).flatMap (fun age => barData rows age)

/-- The distinct inner keys of the rollup group with outer key `age`. -/
def catsOf (rows : List Row) (age : Option String) : List (Option String) :=
  firstKeys ((rows.filter (fun d => d.Strat1 = age)).map (fun d => d.Strat2))

theorem flatData_eq (rows : List Row) :
    flatData rows
      = (firstKeys (rows.map (fun d => d.Strat1))).flatMap (fun a =>
          (catsOf rows a).map (fun c =>
            { AgeGroup := a, Category := c, Value := leafMean rows a c })) := by
  rw [flatData, nested, List.flatMap_map]
  congr 1
  funext a
  show ((catsOf rows a).map (fun cat => (cat, leafMean rows a cat))).map _ = _
  rw [List.map_map]
  rfl

theorem mem_catsOf (rows : List Row) (age cat : Option String) :
    cat ∈ catsOf rows age ↔ ∃ r ∈ rows, r.Strat1 = age ∧ r.Strat2 = cat := by
  rw [catsOf, mem_firstKeys]
  simp [List.mem_filter, List.mem_map]
  tauto

theorem mem_flatData (rows : List Row) (d : FlatDatum) :
    d ∈ flatData rows ↔
      pairPresent rows d.AgeGroup d.Category ∧
        d.Value = leafMean rows d.AgeGroup d.Category := by
  rw [flatData_eq, List.mem_flatMap]
  constructor
  · rintro ⟨a, ha, hd⟩
    rw [List.mem_map] at hd
    obtain ⟨c, hc, rfl⟩ := hd
    exact ⟨(mem_catsOf rows a c).mp hc, rfl⟩
  · rintro ⟨hp, hv⟩
    obtain ⟨r, hr, h1, h2⟩ := hp
    refine ⟨d.AgeGroup, ?_, ?_⟩
    · rw [mem_firstKeys]
      exact List.mem_map.mpr ⟨r, hr, h1⟩
    · rw [List.mem_map]
      refine ⟨d.Category, (mem_catsOf rows _ _).mpr ⟨r, hr, h1, h2⟩, ?_⟩
      cases d
      simp only at hv
      simp [hv]

theorem nodup_flat_pairs (rows : List Row) :
    ((flatData rows).map (fun d => (d.AgeGroup, d.Category))).Nodup := by
  rw [flatData_eq, List.map_flatMap]
  simp only [List.map_map]
  rw [List.nodup_flatMap]
  constructor
  · intro a _
    refine List.Nodup.map ?_ (nodup_firstKeys _)
    intro x y hxy
    exact congrArg Prod.snd hxy
  · refine List.Pairwise.imp ?_ (nodup_firstKeys _)
    intro a b hab x hxa hxb
    obtain ⟨c, _, rfl⟩ := List.mem_map.mp hxa
    obtain ⟨c', _, heq⟩ := List.mem_map.mp hxb
    exact hab (congrArg Prod.fst heq).symm

/-- The distinct `(Strat1, Strat2)` pairs of a row list, in
first-occurrence order. -/
def distinctPairs (rows : List Row) :
    List (Option String × Option String) :=
  firstKeys (rows.map (fun d => (d.Strat1, d.Strat2)))

theorem mem_distinctPairs (rows : List Row)
    (p : Option String × Option String) :
    p ∈ distinctPairs rows ↔ pairPresent rows p.1 p.2 := by
  rw [distinctPairs, mem_firstKeys, pairPresent]
  simp [Prod.ext_iff]

theorem mem_flat_pairs (rows : List Row) (a c : Option String) :
    (a, c) ∈ (flatData rows).map (fun d => (d.AgeGroup, d.Category)) ↔
      pairPresent rows a c := by
  rw [List.mem_map]
  constructor
  · rintro ⟨d, hd, heq⟩
    have hp := ((mem_flatData rows d).mp hd).1
    rw [Prod.mk.injEq] at heq
    rw [heq.1, heq.2] at hp
    exact hp
  · intro hp
    refine ⟨{ AgeGroup := a, Category := c, Value := leafMean rows a c },
      ?_, rfl⟩
    exact (mem_flatData rows _).mpr ⟨hp, rfl⟩

/-- C4 (amended): the Flattened Series built at lines 122–131 has one
entry per distinct `(Strat1, Strat2)` pair actually present in the
Dimension View (so possibly fewer than `|ageGroups| × |categories|`),
while the rendered per-bar data of lines 170–179 always has exactly
`|ageGroups| × |categories|` records. -/
theorem flat_bars_length (base : List Row) (mode : String) :
    (flatData (updateRows mode base)).length
        = (distinctPairs (updateRows mode base)).length ∧
    (allBars (updateRows mode base)).length
        = (ageGroups (updateRows mode base)).length *
            (categories (updateRows mode base)).length := by
  constructor
  · have h1 := nodup_flat_pairs (updateRows mode base)
    have h2 : (distinctPairs (updateRows mode base)).Nodup :=
      nodup_firstKeys _
    have hperm := List.perm_of_nodup_nodup_toFinset_eq h1 h2
      (Finset.ext fun p => by
        rw [List.mem_toFinset, List.mem_toFinset, mem_distinctPairs]
        obtain ⟨a, c⟩ := p
        exact mem_flat_pairs _ a c)
    calc (flatData (updateRows mode base)).length
        = ((flatData (updateRows mode base)).map
            (fun d => (d.AgeGroup, d.Category))).length :=
          (List.length_map _ _).symm
      _ = (distinctPairs (updateRows mode base)).length := hperm.length_eq
  · rw [allBars, List.length_flatMap]
    have hmap : (ageGroups (updateRows mode base)).map
          (fun age => (barData (updateRows mode base) age).length)
        = (ageGroups (updateRows mode base)).map
          (fun _ => (categories (updateRows mode base)).length) :=
      List.map_congr_left (fun age _ => by rw [barData, List.length_map])
    simp only [Function.comp_def]
    rw [hmap, List.map_const', List.sum_replicate, smul_eq_mul]

/-- A base set whose Dimension View has two age groups and two
categories but only three (age, category) pairs. -/
def sparseBase : List Row :=
  [{ Class := some "Cognitive Decline", Topic := some "T",
     StratCat1 := some "Age Group", Strat1 := some "60-64",
     StratCat2 := some "Sex", Strat2 := some "Female",
     Value := some (JSNum.num 1) },
   { Class := some "Cognitive Decline", Topic := some "T",
     StratCat1 := some "Age Group", Strat1 := some "60-64",
     StratCat2 := some "Sex", Strat2 := some "Male",
     Value := some (JSNum.num 2) },
   { Class := some "Cognitive Decline", Topic := some "T",
     StratCat1 := some "Age Group", Strat1 := some "65-69",
     StratCat2 := some "Sex", Strat2 := some "Female",
     Value := some (JSNum.num 3) }]

/-- Counterexample to C4 as stated: a filtered input with two age
groups and two categories whose Flattened Series has only three
entries, not `2 × 2 = 4` — the aggregation stage emits one entry per
pair present, not per pair of the product. -/
theorem flat_length_counterexample :
    (ageGroups (updateRows "sex" sparseBase)).length = 2 ∧
    (categories (updateRows "sex" sparseBase)).length = 2 ∧
    (flatData (updateRows "sex" sparseBase)).length = 3 ∧
    (flatData (updateRows "sex" sparseBase)).length ≠
      (ageGroups (updateRows "sex" sparseBase)).length *
        (categories (updateRows "sex" sparseBase)).length := by
  refine ⟨by decide, by decide, by decide, ?_⟩
  intro h
  rw [show (ageGroups (updateRows "sex" sparseBase)).length = 2 from by decide,
    show (categories (updateRows "sex" sparseBase)).length = 2 from by decide,
    show (flatData (updateRows "sex" sparseBase)).length = 3 from by decide]
    at h
  exact absurd h (by decide)

instance (rows : List Row) (age cat : Option String) :
    Decidable (pairPresent rows age cat) :=
  inferInstanceAs (Decidable (∃ r ∈ rows, r.Strat1 = age ∧ r.Strat2 = cat))

/-- C6: an `(age, category)` cell of the rendered chart with no
matching Dimension View row still gets a per-bar datum, carrying
`Value = 0`: the `find` at line 173 misses and the fallback `0` of
line 177 is used; nothing is omitted and no error is possible. -/
theorem zero_bar (base : List Row) (mode : String) (age cat : Option String)
    (hage : age ∈ ageGroups (updateRows mode base))
    (hcat : cat ∈ categories (updateRows mode base))
    (hnone : ¬ pairPresent (updateRows mode base) age cat) :
    ({ AgeGroup := age, Category := cat, Value := some 0 } : FlatDatum)
        ∈ barData (updateRows mode base) age ∧
    ({ AgeGroup := age, Category := cat, Value := some 0 } : FlatDatum)
        ∈ allBars (updateRows mode base) := by
  have hfind : (flatData (updateRows mode base)).find?
      (fun d => d.AgeGroup = age && d.Category = cat) = none := by
    rw [List.find?_eq_none]
    intro d hd hpd
    simp only [Bool.and_eq_true, decide_eq_true_eq] at hpd
    have hp := ((mem_flatData _ d).mp hd).1
    rw [hpd.1, hpd.2] at hp
    exact hnone hp
  have hbar : ({ AgeGroup := age, Category := cat, Value := some 0 } :
      FlatDatum) ∈ barData (updateRows mode base) age := by
    rw [barData]
    refine List.mem_map.mpr ⟨cat, hcat, ?_⟩
    rw [hfind]
  exact ⟨hbar, List.mem_flatMap.mpr ⟨age, hage, hbar⟩⟩

/-- Witness for `zero_bar`: in `sparseBase` the ("65-69", "Male") cell
has no matching row and renders as a `Value = 0` bar. -/
theorem zero_bar_witness :
    ({ AgeGroup := some "65-69", Category := some "Male",
       Value := some 0 } : FlatDatum)
        ∈ barData (updateRows "sex" sparseBase) (some "65-69") ∧
    ({ AgeGroup := some "65-69", Category := some "Male",
       Value := some 0 } : FlatDatum)
        ∈ allBars (updateRows "sex" sparseBase) :=
  zero_bar sparseBase "sex" (some "65-69") (some "Male")
    (by decide) (by decide) (by decide)

/-- Everything `updateGroupedChart` derives and renders on one run:
the Dimension View, the Aggregate Table, the axis domains, the
Flattened Series and the per-bar data. -/
structure ChartView where
  rows : List Row
  agg : List (Option String × List (Option String × Option ℚ))
  ageGroups : List (Option String)
  categories : List (Option String)
  flat : List FlatDatum
  bars : List FlatDatum
deriving DecidableEq, Repr

/-- The derivation pipeline of one `updateGroupedChart` run
(lines 79–179), as a function of the cached base set and the mode. -/
def computeView (base : List Row) (mode : String) : ChartView :=
  let rows := updateRows mode base
  { rows := rows
    agg := nested rows
    ageGroups := ageGroups rows
    categories := categories rows
    flat := flatData rows
    bars := allBars rows }

/-- The session state: the base set cached on `window.__baseData__`
(line 33) and the SVG's current contents (`none` before the first
render; each run clears and refills them, line 71). -/
structure ChartState where
  baseData : List Row
  view : Option ChartView
deriving DecidableEq, Repr

/-- `updateGroupedChart(mode)` (lines 65–179) as a state transition: it
reads the cached base set, recomputes every derived entity from it and
the mode, replaces the rendered view, and writes nothing else — in
particular it never assigns to the base set (the code only reads
`window.__baseData__` and filters it, producing fresh arrays). -/
def updateGroupedChart (s : ChartState) (mode : String) : ChartState :=
  { baseData := s.baseData, view := some (computeView s.baseData mode) }

/-- The state after the CSV load callback (lines 17–46) has filtered
the raw rows and cached them, before the initial render. -/
def loadState (raw : List RawRow) : ChartState :=
  { baseData := baseFilter (raw.map rowAccessor), view := none }

/-- The state after load plus the initial `updateGroupedChart("sex")`
call (line 45). -/
def initialState (raw : List RawRow) : ChartState :=
  updateGroupedChart (loadState raw) "sex"

/-- C8: with the base set fixed, computing the Aggregate Table in mode
`m1`, switching to `m2`, and switching back to `m1` yields the same
Aggregate Table as the first `m1` computation — the aggregation is a
deterministic function of the cached base set and the mode. -/
theorem agg_toggle_reproducible (s : ChartState) (m1 m2 : String) :
    (updateGroupedChart (updateGroupedChart (updateGroupedChart s m1) m2)
        m1).view.map (fun v => v.agg)
      = (updateGroupedChart s m1).view.map (fun v => v.agg) := rfl

theorem foldl_update_baseData (modes : List String) (s : ChartState) :
    (modes.foldl updateGroupedChart s).baseData = s.baseData := by
  induction modes generalizing s with
  | nil => rfl
  | cons m ms ih => rw [List.foldl_cons, ih]; rfl

/-- C9: a dimension change recomputes the whole view from the cached
base set and the new mode alone (independently of what was rendered
before), and leaves the base set untouched; hence after any sequence of
dimension toggles the base set is still the one computed at load. -/
theorem update_frame (raw : List RawRow) (modes : List String)
    (s : ChartState) (mode : String) :
    (updateGroupedChart s mode).baseData = s.baseData ∧
    (updateGroupedChart s mode).view = some (computeView s.baseData mode) ∧
    (modes.foldl updateGroupedChart (initialState raw)).baseData
      = baseFilter (raw.map rowAccessor) := by
  refine ⟨rfl, rfl, ?_⟩
  rw [foldl_update_baseData]
  rfl
